import Mathlib

/-
Verification of the presence-and-relay hub in src/server.js.

The registry connectedUsers (a JS Map from userId to a Set of socket ids)
is embedded as an insertion-ordered association list whose values are
insertion-ordered duplicate-free lists. Each inbound event handler is
embedded as a pure step function; a handler that destructures a null or
absent payload is modelled as returning an error, all other outcomes are
returned as a list of outbound messages.
-/

namespace Planora

/-- A payload field of an inbound event: none models a missing, null or
undefined JS property; some s models the string value s. -/
abbrev Field := Option String

/-- JS truthiness of a string-valued field: null, undefined and the empty
string are falsy, every other string is truthy. -/
def truthy : Field → Bool
  | none => false
  | some s => !s.isEmpty

/-- The registry connectedUsers of server.js: userId mapped to the set of
socket ids of that user, in insertion order. -/
abbrev Registry := List (String × List String)

/-- The key list of the registry in insertion order (Map.keys). -/
def keys (r : Registry) : List String := r.map Prod.fst

/-- Map.get: the value of the first entry with the given key, if any. -/
def lookupSet (r : Registry) (uid : String) : Option (List String) :=
  match r with
  | [] => none
  | (u, hs) :: rest => if u = uid then some hs else lookupSet rest uid

/-- The handle set of a user, empty when the key is absent. -/
def handlesOf (r : Registry) (uid : String) : List String :=
  match lookupSet r uid with
  | some hs => hs
  | none => []

/-- Set.add on a socket-id set: append the id when not already present. -/
def insertHandle (sid : String) (hs : List String) : List String :=
  if sid ∈ hs then hs else hs ++ [sid]

/-- The registry update of the register handler, server.js lines 28 to 31:
add the socket id to the set of userId, creating the entry if absent. -/
def addHandle (uid sid : String) : Registry → Registry
  | [] => [(uid, [sid])]
  | (u, hs) :: rest =>
    if u = uid then (u, insertHandle sid hs) :: rest
    else (u, hs) :: addHandle uid sid rest

/-- The registry scan of the disconnect handler, server.js lines 67 to 83:
walk the entries in order, and at the first entry whose set holds the
socket id, delete the id from the set; when the set empties, delete the
entry and report its userId (the userIdToCheck of the code); the loop
breaks at the first hit, and a socket found in no entry is a no-op. -/
def removeSocket (sid : String) : Registry → Registry × Option String
  | [] => ([], none)
  | (u, hs) :: rest =>
    if sid ∈ hs then
      if (hs.erase sid).isEmpty then (rest, some u)
      else ((u, hs.erase sid) :: rest, none)
    else
      ((u, hs) :: (removeSocket sid rest).1, (removeSocket sid rest).2)

/-- A register or disconnect event at the registry level. -/
inductive RegEvent
  | reg (userId handle : String)
  | disc (handle : String)

/-- The registry transition of one event: register is a no-op on a falsy
userId (server.js line 25), disconnect runs the scan. -/
def applyReg (r : Registry) : RegEvent → Registry
  | .reg uid h => if uid.isEmpty then r else addHandle uid h r
  | .disc h => (removeSocket h r).1

/-- The registry reached from the empty initial state by a sequence of
register and disconnect events. -/
def runReg (evs : List RegEvent) : Registry := evs.foldl applyReg []

/-- The outbound events emitted by server.js. -/
inductive OutEvent
  | user_online (userId : String)
  | online_users (userIds : List String)
  | user_offline (userId : String)
  | typing (senderId : String)
  | stop_typing (senderId : String)
  | receive_message (senderId content : String) (messageId createdAt : Field)
  | receive_media (senderId mediaType : String)
      (data filename messageId createdAt : Field)
  | webrtc_offer (senderSocketId senderId offer : String)
  | webrtc_answer (answer receiverSocketId : String)
  | webrtc_ice (candidate : String)
  deriving DecidableEq

/-- The addressing of an outbound message: io.emit reaches every connected
socket, io.to or socket.emit reach one socket id. -/
inductive Target
  | all
  | sock (socketId : String)
  deriving DecidableEq

/-- One outbound message: its target and its event. -/
abbrev Msg := Target × OutEvent

/-- The fields destructured by the send_message handler. -/
structure MsgPayload where
  senderId : Field
  receiverId : Field
  content : Field
  messageId : Field
  createdAt : Field

/-- The fields destructured by the send_media handler. -/
structure MediaPayload where
  senderId : Field
  receiverId : Field
  mediaType : Field
  data : Field
  filename : Field
  messageId : Field
  createdAt : Field

/-- The fields destructured by the typing and stop_typing handlers. -/
structure TypingPayload where
  senderId : Field
  receiverId : Field

/-- The fields destructured by the webrtc_offer handler. -/
structure OfferPayload where
  receiverId : Field
  senderId : Field
  offer : Field

/-- The fields destructured by the webrtc_answer handler. -/
structure AnswerPayload where
  senderSocketId : Field
  answer : Field

/-- The fields destructured by the webrtc_ice handler. -/
structure IcePayload where
  targetSocketId : Field
  candidate : Field

/-- The register handler, server.js lines 24 to 51: guard a falsy userId,
update the registry, broadcast user_online to all, send the full online
list to the registering socket, then send one user_online per other online
user to the registering socket. -/
def registerStep (selfId : String) (userId : Field) (r : Registry) :
    Registry × List Msg :=
  match userId with
  | none => (r, [])
  | some uid =>
    if uid.isEmpty then (r, [])
    else
      (addHandle uid selfId r,
        (Target.all, OutEvent.user_online uid)
          :: (Target.sock selfId,
                OutEvent.online_users (keys (addHandle uid selfId r)))
          :: ((keys (addHandle uid selfId r)).filter (fun u => u != uid)).map
              (fun u => (Target.sock selfId, OutEvent.user_online u)))

/-- The disconnect handler, server.js lines 64 to 90: run the scan; when it
reports a truthy userIdToCheck, broadcast user_offline to all. -/
def disconnectStep (selfId : String) (r : Registry) : Registry × List Msg :=
  match removeSocket selfId r with
  | (r2, some uid) =>
    if uid.isEmpty then (r2, []) else
      (r2, [(Target.all, OutEvent.user_offline uid)])
  | (r2, none) => (r2, [])

/-- The typing handler, server.js lines 95 to 104: destructuring throws on
a null or absent payload; senderId and receiverId are guarded for
truthiness, then the receiver set is looked up and the event fanned out. -/
def typingStep (p : Option TypingPayload) (r : Registry) :
    Except Unit (List Msg) :=
  match p with
  | none => .error ()
  | some q =>
    .ok <| match q.senderId, q.receiverId with
      | some s, some rcv =>
        if s.isEmpty || rcv.isEmpty then []
        else
          match lookupSet r rcv with
          | some hs => hs.map (fun sid => (Target.sock sid, OutEvent.typing s))
          | none => []
      | _, _ => []

/-- The stop_typing handler, server.js lines 106 to 115, identical to the
typing handler up to the event name. -/
def stopTypingStep (p : Option TypingPayload) (r : Registry) :
    Except Unit (List Msg) :=
  match p with
  | none => .error ()
  | some q =>
    .ok <| match q.senderId, q.receiverId with
      | some s, some rcv =>
        if s.isEmpty || rcv.isEmpty then []
        else
          match lookupSet r rcv with
          | some hs =>
              hs.map (fun sid => (Target.sock sid, OutEvent.stop_typing s))
          | none => []
      | _, _ => []

/-- The send_message handler, server.js lines 120 to 137: senderId,
receiverId and content are guarded for truthiness, then the receiver set is
looked up and receive_message fanned out to each socket of the set with the
optional messageId and createdAt passed through unchanged. -/
def sendMessageStep (p : Option MsgPayload) (r : Registry) :
    Except Unit (List Msg) :=
  match p with
  | none => .error ()
  | some q =>
    .ok <| match q.senderId, q.receiverId, q.content with
      | some s, some rcv, some c =>
        if s.isEmpty || rcv.isEmpty || c.isEmpty then []
        else
          match lookupSet r rcv with
          | some hs => hs.map (fun sid =>
              (Target.sock sid,
                OutEvent.receive_message s c q.messageId q.createdAt))
          | none => []
      | _, _, _ => []

/-- The send_media handler, server.js lines 140 to 167: senderId,
receiverId and mediaType are guarded for truthiness, then receive_media is
fanned out to the receiver set with the optional fields passed through. -/
def sendMediaStep (p : Option MediaPayload) (r : Registry) :
    Except Unit (List Msg) :=
  match p with
  | none => .error ()
  | some q =>
    .ok <| match q.senderId, q.receiverId, q.mediaType with
      | some s, some rcv, some mt =>
        if s.isEmpty || rcv.isEmpty || mt.isEmpty then []
        else
          match lookupSet r rcv with
          | some hs => hs.map (fun sid =>
              (Target.sock sid,
                OutEvent.receive_media s mt q.data q.filename
                  q.messageId q.createdAt))
          | none => []
      | _, _, _ => []

/-- The webrtc_offer handler, server.js lines 174 to 187: receiverId,
senderId and offer are guarded for truthiness, then the offer is fanned out
to the receiver set, tagged with the socket id of the calling connection as
senderSocketId. -/
def offerStep (selfId : String) (p : Option OfferPayload) (r : Registry) :
    Except Unit (List Msg) :=
  match p with
  | none => .error ()
  | some q =>
    .ok <| match q.receiverId, q.senderId, q.offer with
      | some rcv, some s, some off =>
        if rcv.isEmpty || s.isEmpty || off.isEmpty then []
        else
          match lookupSet r rcv with
          | some hs => hs.map (fun sid =>
              (Target.sock sid, OutEvent.webrtc_offer selfId s off))
          | none => []
      | _, _, _ => []

/-- The webrtc_answer handler, server.js lines 190 to 197: senderSocketId
and answer are guarded for truthiness, then the answer is sent to the one
socket id named by senderSocketId with no registry lookup. -/
def answerStep (selfId : String) (p : Option AnswerPayload) :
    Except Unit (List Msg) :=
  match p with
  | none => .error ()
  | some q =>
    .ok <| match q.senderSocketId, q.answer with
      | some target, some ans =>
        if target.isEmpty || ans.isEmpty then []
        else [(Target.sock target, OutEvent.webrtc_answer ans selfId)]
      | _, _ => []

/-- The webrtc_ice handler, server.js lines 200 to 204: targetSocketId and
candidate are guarded for truthiness, then the candidate is sent to the one
socket id named by targetSocketId. -/
def iceStep (p : Option IcePayload) : Except Unit (List Msg) :=
  match p with
  | none => .error ()
  | some q =>
    .ok <| match q.targetSocketId, q.candidate with
      | some target, some cand =>
        if target.isEmpty || cand.isEmpty then []
        else [(Target.sock target, OutEvent.webrtc_ice cand)]
      | _, _ => []

/-- The inbound event surface of server.js; each payload is an Option of
its destructured record, none standing for a null or absent payload. -/
inductive InEvent
  | register (userId : Field)
  | request_online_users
  | disconnect
  | typing (p : Option TypingPayload)
  | stop_typing (p : Option TypingPayload)
  | send_message (p : Option MsgPayload)
  | send_media (p : Option MediaPayload)
  | webrtc_offer (p : Option OfferPayload)
  | webrtc_answer (p : Option AnswerPayload)
  | webrtc_ice (p : Option IcePayload)

/-- Pair a read-only handler result with the unchanged registry. -/
def withReg (r : Registry) : Except Unit (List Msg) →
    Except Unit (Registry × List Msg)
  | .ok ms => .ok (r, ms)
  | .error e => .error e

/-- One handler invocation of the socket selfId on one inbound event:
the next registry and the outbound messages, or an error when the handler
destructures a null payload. -/
def step (selfId : String) (r : Registry) :
    InEvent → Except Unit (Registry × List Msg)
  | .register uid => .ok (registerStep selfId uid r)
  | .request_online_users =>
      .ok (r, [(Target.sock selfId, OutEvent.online_users (keys r))])
  | .disconnect => .ok (disconnectStep selfId r)
  | .typing p => withReg r (typingStep p r)
  | .stop_typing p => withReg r (stopTypingStep p r)
  | .send_message p => withReg r (sendMessageStep p r)
  | .send_media p => withReg r (sendMediaStep p r)
  | .webrtc_offer p => withReg r (offerStep selfId p r)
  | .webrtc_answer p => withReg r (answerStep selfId p)
  | .webrtc_ice p => withReg r (iceStep p)

/-- Whether a handler result is a normal return rather than a throw. -/
def isOkStep (x : Except Unit (Registry × List Msg)) : Bool :=
  match x with
  | .ok _ => true
  | .error _ => false

/-- Whether the payload of an event is an object (or the event takes no
destructured payload at all), so that destructuring cannot throw. -/
def hasObjectPayload : InEvent → Bool
  | .typing p => p.isSome
  | .stop_typing p => p.isSome
  | .send_message p => p.isSome
  | .send_media p => p.isSome
  | .webrtc_offer p => p.isSome
  | .webrtc_answer p => p.isSome
  | .webrtc_ice p => p.isSome
  | _ => true

/-- Transport delivery of one message given the live socket ids: a
broadcast reaches every live socket, a targeted message reaches its socket
only when that socket is still connected, and is dropped otherwise. -/
def expandMsg (live : List String) (m : Msg) : List (String × OutEvent) :=
  match m.1 with
  | .all => live.map (fun sid => (sid, m.2))
  | .sock sid => if sid ∈ live then [(sid, m.2)] else []

/-- The deliveries of a message list to the live sockets. -/
def deliveriesOf (live : List String) (ms : List Msg) :
    List (String × OutEvent) :=
  ms.flatMap (expandMsg live)

/-! Helper lemmas about the registry operations. -/

theorem insertHandle_ne_nil (sid : String) (hs : List String) :
    insertHandle sid hs ≠ [] := by
  unfold insertHandle
  split
  · exact List.ne_nil_of_mem (by assumption)
  · simp

theorem mem_insertHandle_self (sid : String) (hs : List String) :
    sid ∈ insertHandle sid hs := by
  unfold insertHandle
  split
  · assumption
  · simp

theorem mem_insertHandle_of_mem (sid h : String) (hs : List String)
    (hmem : h ∈ hs) : h ∈ insertHandle sid hs := by
  unfold insertHandle
  split
  · exact hmem
  · exact List.mem_append_left _ hmem

theorem insertHandle_of_mem (sid : String) (hs : List String)
    (h : sid ∈ hs) : insertHandle sid hs = hs := by
  unfold insertHandle
  exact if_pos h

theorem insertHandle_idem (sid : String) (hs : List String) :
    insertHandle sid (insertHandle sid hs) = insertHandle sid hs :=
  insertHandle_of_mem sid _ (mem_insertHandle_self sid hs)

theorem insertHandle_nodup (sid : String) (hs : List String)
    (h : hs.Nodup) : (insertHandle sid hs).Nodup := by
  unfold insertHandle
  split
  · exact h
  · next hmem =>
      refine List.Nodup.append h (List.nodup_singleton sid) ?_
      intro a ha hb
      rw [List.mem_singleton] at hb
      exact hmem (hb ▸ ha)

theorem count_insertHandle_self (sid : String) (hs : List String)
    (h : hs.Nodup) : (insertHandle sid hs).count sid = 1 := by
  unfold insertHandle
  split
  · next hmem => exact List.count_eq_one_of_mem h hmem
  · next hmem =>
      rw [List.count_append, List.count_eq_zero_of_not_mem hmem]
      simp

theorem lookupSet_addHandle_self (uid sid : String) (r : Registry) :
    lookupSet (addHandle uid sid r) uid
      = some (insertHandle sid (handlesOf r uid)) := by
  induction r with
  | nil => simp [addHandle, lookupSet, handlesOf, insertHandle]
  | cons q rest ih =>
    obtain ⟨u, hs⟩ := q
    by_cases hu : u = uid
    · subst hu
      simp [addHandle, lookupSet, handlesOf]
    · simp only [addHandle, if_neg hu, lookupSet, handlesOf]
      rw [ih]
      rfl

theorem lookupSet_addHandle_ne (uid sid u : String) (r : Registry)
    (hu : u ≠ uid) : lookupSet (addHandle uid sid r) u = lookupSet r u := by
  induction r with
  | nil =>
    simp only [addHandle, lookupSet]
    rw [if_neg (fun h => hu h.symm)]
  | cons q rest ih =>
    obtain ⟨v, hs⟩ := q
    by_cases hv : v = uid
    · subst hv
      simp only [addHandle, if_pos rfl, lookupSet]
      rw [if_neg (fun h => hu h.symm), if_neg (fun h => hu h.symm)]
    · simp only [addHandle, if_neg hv, lookupSet]
      by_cases hvu : v = u
      · rw [if_pos hvu, if_pos hvu]
      · rw [if_neg hvu, if_neg hvu, ih]

theorem handlesOf_addHandle_self (uid sid : String) (r : Registry) :
    handlesOf (addHandle uid sid r) uid = insertHandle sid (handlesOf r uid) := by
  unfold handlesOf
  rw [lookupSet_addHandle_self]
  rfl

theorem handlesOf_addHandle_ne (uid sid u : String) (r : Registry)
    (hu : u ≠ uid) : handlesOf (addHandle uid sid r) u = handlesOf r u := by
  unfold handlesOf
  rw [lookupSet_addHandle_ne uid sid u r hu]

theorem addHandle_idem (uid sid : String) (r : Registry) :
    addHandle uid sid (addHandle uid sid r) = addHandle uid sid r := by
  induction r with
  | nil =>
    simp [addHandle, insertHandle_of_mem sid [sid] (List.mem_singleton_self sid)]
  | cons q rest ih =>
    obtain ⟨u, hs⟩ := q
    by_cases hu : u = uid
    · subst hu
      simp [addHandle, insertHandle_idem]
    · simp [addHandle, if_neg hu, ih]

theorem entriesNonempty_addHandle (uid sid : String) (r : Registry)
    (h : ∀ p ∈ r, p.2 ≠ []) : ∀ p ∈ addHandle uid sid r, p.2 ≠ [] := by
  induction r with
  | nil =>
    intro p hp
    simp only [addHandle, List.mem_singleton] at hp
    subst hp
    simp
  | cons q rest ih =>
    obtain ⟨u, hs⟩ := q
    intro p hp
    by_cases hu : u = uid
    · rw [addHandle, if_pos hu] at hp
      rcases List.mem_cons.mp hp with h1 | h2
      · subst h1
        exact insertHandle_ne_nil sid hs
      · exact h p (List.mem_cons_of_mem _ h2)
    · rw [addHandle, if_neg hu] at hp
      rcases List.mem_cons.mp hp with h1 | h2
      · subst h1
        exact h (u, hs) (List.mem_cons_self _ _)
      · exact ih (fun p hp => h p (List.mem_cons_of_mem _ hp)) p h2

theorem entriesNonempty_removeSocket (sid : String) (r : Registry)
    (h : ∀ p ∈ r, p.2 ≠ []) : ∀ p ∈ (removeSocket sid r).1, p.2 ≠ [] := by
  induction r with
  | nil =>
    intro p hp
    simp [removeSocket] at hp
  | cons q rest ih =>
    obtain ⟨u, hs⟩ := q
    intro p hp
    by_cases hmem : sid ∈ hs
    · rw [removeSocket, if_pos hmem] at hp
      by_cases hemp : (hs.erase sid).isEmpty
      · rw [if_pos hemp] at hp
        exact h p (List.mem_cons_of_mem _ hp)
      · rw [if_neg hemp] at hp
        rcases List.mem_cons.mp hp with h1 | h2
        · subst h1
          simpa using hemp
        · exact h p (List.mem_cons_of_mem _ h2)
    · rw [removeSocket, if_neg hmem] at hp
      rcases List.mem_cons.mp hp with h1 | h2
      · subst h1
        exact h (u, hs) (List.mem_cons_self _ _)
      · exact ih (fun p hp => h p (List.mem_cons_of_mem _ hp)) p h2

theorem entriesNonempty_runReg (evs : List RegEvent) :
    ∀ p ∈ runReg evs, p.2 ≠ [] := by
  have main : ∀ (evs : List RegEvent) (r : Registry),
      (∀ p ∈ r, p.2 ≠ []) → ∀ p ∈ evs.foldl applyReg r, p.2 ≠ [] := by
    intro evs
    induction evs with
    | nil => intro r h; simpa using h
    | cons e rest ih =>
      intro r h
      rw [List.foldl_cons]
      apply ih
      cases e with
      | reg uid hdl =>
        simp only [applyReg]
        split
        · exact h
        · exact entriesNonempty_addHandle uid hdl r h
      | disc hdl => exact entriesNonempty_removeSocket hdl r h
  exact main evs [] (by simp)

theorem key_iff_nonempty_of (r : Registry) (h : ∀ p ∈ r, p.2 ≠ [])
    (uid : String) : uid ∈ keys r ↔ handlesOf r uid ≠ [] := by
  induction r with
  | nil => simp [keys, handlesOf, lookupSet]
  | cons q rest ih =>
    obtain ⟨u, hs⟩ := q
    by_cases hu : u = uid
    · subst hu
      have hne : hs ≠ [] := h (u, hs) (List.mem_cons_self _ _)
      simp [keys, handlesOf, lookupSet, hne]
    · have hne : uid ≠ u := fun hh => hu hh.symm
      simp only [keys, List.map_cons, List.mem_cons, handlesOf, lookupSet,
        if_neg hu]
      rw [iff_iff_implies_and_implies] at ih ⊢
      constructor
      · intro hc
        rcases hc with h1 | h2
        · exact absurd h1 hne
        · exact (ih (fun p hp => h p (List.mem_cons_of_mem _ hp))).1 h2
      · intro hc
        right
        exact (ih (fun p hp => h p (List.mem_cons_of_mem _ hp))).2 hc

theorem removeSocket_not_found (sid : String) (r : Registry)
    (h : ∀ p ∈ r, sid ∉ p.2) : removeSocket sid r = (r, none) := by
  induction r with
  | nil => rfl
  | cons q rest ih =>
    obtain ⟨u, hs⟩ := q
    have h1 : sid ∉ hs := h (u, hs) (List.mem_cons_self _ _)
    rw [removeSocket, if_neg h1, ih (fun p hp => h p (List.mem_cons_of_mem _ hp))]

theorem removeSocket_last (r1 r2 : Registry) (uid sid : String)
    (hnot : ∀ p ∈ r1, sid ∉ p.2) :
    removeSocket sid (r1 ++ (uid, [sid]) :: r2) = (r1 ++ r2, some uid) := by
  induction r1 with
  | nil =>
    rw [List.nil_append, removeSocket, if_pos (List.mem_singleton_self sid)]
    rw [if_pos (by simp)]
    rfl
  | cons q rest ih =>
    obtain ⟨u, hs⟩ := q
    have h1 : sid ∉ hs := hnot (u, hs) (List.mem_cons_self _ _)
    rw [List.cons_append, removeSocket, if_neg h1,
      ih (fun p hp => hnot p (List.mem_cons_of_mem _ hp))]
    rfl

theorem keys_append (r1 r2 : Registry) :
    keys (r1 ++ r2) = keys r1 ++ keys r2 := by
  simp [keys]

theorem setsNodup_addHandle (uid sid : String) (r : Registry)
    (h : ∀ p ∈ r, p.2.Nodup) : ∀ p ∈ addHandle uid sid r, p.2.Nodup := by
  induction r with
  | nil =>
    intro p hp
    simp only [addHandle, List.mem_singleton] at hp
    subst hp
    simp
  | cons q rest ih =>
    obtain ⟨u, hs⟩ := q
    intro p hp
    by_cases hu : u = uid
    · rw [addHandle, if_pos hu] at hp
      rcases List.mem_cons.mp hp with h1 | h2
      · subst h1
        exact insertHandle_nodup sid hs (h (u, hs) (List.mem_cons_self _ _))
      · exact h p (List.mem_cons_of_mem _ h2)
    · rw [addHandle, if_neg hu] at hp
      rcases List.mem_cons.mp hp with h1 | h2
      · subst h1
        exact h (u, hs) (List.mem_cons_self _ _)
      · exact ih (fun p hp => h p (List.mem_cons_of_mem _ hp)) p h2

theorem setsNodup_removeSocket (sid : String) (r : Registry)
    (h : ∀ p ∈ r, p.2.Nodup) : ∀ p ∈ (removeSocket sid r).1, p.2.Nodup := by
  induction r with
  | nil =>
    intro p hp
    simp [removeSocket] at hp
  | cons q rest ih =>
    obtain ⟨u, hs⟩ := q
    intro p hp
    by_cases hmem : sid ∈ hs
    · rw [removeSocket, if_pos hmem] at hp
      by_cases hemp : (hs.erase sid).isEmpty
      · rw [if_pos hemp] at hp
        exact h p (List.mem_cons_of_mem _ hp)
      · rw [if_neg hemp] at hp
        rcases List.mem_cons.mp hp with h1 | h2
        · subst h1
          exact List.Nodup.erase sid (h (u, hs) (List.mem_cons_self _ _))
        · exact h p (List.mem_cons_of_mem _ h2)
    · rw [removeSocket, if_neg hmem] at hp
      rcases List.mem_cons.mp hp with h1 | h2
      · subst h1
        exact h (u, hs) (List.mem_cons_self _ _)
      · exact ih (fun p hp => h p (List.mem_cons_of_mem _ hp)) p h2

theorem setsNodup_runReg (evs : List RegEvent) :
    ∀ p ∈ runReg evs, p.2.Nodup := by
  have main : ∀ (evs : List RegEvent) (r : Registry),
      (∀ p ∈ r, p.2.Nodup) → ∀ p ∈ evs.foldl applyReg r, p.2.Nodup := by
    intro evs
    induction evs with
    | nil => intro r h; simpa using h
    | cons e rest ih =>
      intro r h
      rw [List.foldl_cons]
      apply ih
      cases e with
      | reg uid hdl =>
        simp only [applyReg]
        split
        · exact h
        · exact setsNodup_addHandle uid hdl r h
      | disc hdl => exact setsNodup_removeSocket hdl r h
  exact main evs [] (by simp)

theorem lookupSet_mem (r : Registry) (uid : String) (hs : List String)
    (h : lookupSet r uid = some hs) : (uid, hs) ∈ r := by
  induction r with
  | nil => simp [lookupSet] at h
  | cons q rest ih =>
    obtain ⟨u, vs⟩ := q
    by_cases hu : u = uid
    · subst hu
      rw [lookupSet, if_pos rfl] at h
      cases h
      exact List.mem_cons_self _ _
    · rw [lookupSet, if_neg hu] at h
      exact List.mem_cons_of_mem _ (ih h)

theorem handlesOf_nodup (r : Registry) (uid : String)
    (h : ∀ p ∈ r, p.2.Nodup) : (handlesOf r uid).Nodup := by
  unfold handlesOf
  split
  · next hs heq => exact h (uid, hs) (lookupSet_mem r uid hs heq)
  · simp

theorem mem_keys_addHandle_self (uid sid : String) (r : Registry) :
    uid ∈ keys (addHandle uid sid r) := by
  induction r with
  | nil => simp [addHandle, keys]
  | cons q rest ih =>
    obtain ⟨u, hs⟩ := q
    by_cases hu : u = uid
    · subst hu
      simp [addHandle, keys]
    · rw [addHandle, if_neg hu]
      simp only [keys, List.map_cons, List.mem_cons]
      right
      simpa [keys] using ih

/-- Claim C1: for every finite sequence of register and disconnect events
starting from the empty registry, at every point between events a userId is
a key of the registry iff its handle set is non-empty; in particular the
instant a disconnect empties the set of a user, that key is deleted (since
quantifying over all event sequences covers every observation point,
including the point right after any disconnect). -/
theorem registry_key_iff_handles_nonempty (evs : List RegEvent)
    (uid : String) :
    uid ∈ keys (runReg evs) ↔ handlesOf (runReg evs) uid ≠ [] :=
  key_iff_nonempty_of (runReg evs) (entriesNonempty_runReg evs) uid

/-- Claim C2 counterexample: in the reachable state produced by
registering handle h under user a and then registering the same handle
under user b, the handle is in the sets of both distinct users, so it does
not appear under at most one userId and the most recent registration does
not win (the handle does not belong to b only). -/
theorem handle_under_two_users_cex :
    handlesOf (runReg [RegEvent.reg "a" "h", RegEvent.reg "b" "h"]) "a" = ["h"]
    ∧ handlesOf (runReg [RegEvent.reg "a" "h", RegEvent.reg "b" "h"]) "b"
        = ["h"]
    ∧ "a" ≠ "b" := by
  refine ⟨by decide, by decide, by decide⟩

/-- Claim C2 amended: within the set of any single userId a handle appears
at most once in every reachable registry (the sets are duplicate free),
but the register handler only ever adds: a handle present under some user
keeps that membership across any later registration, including one under a
different userId, so a handle can appear under several userIds at once and
the most recent registration does not win. -/
theorem register_keeps_old_owner (evs : List RegEvent) (r : Registry)
    (u uid sid h : String) :
    (∀ p ∈ runReg evs, p.2.Nodup)
    ∧ (h ∈ handlesOf r u →
        h ∈ handlesOf (applyReg r (RegEvent.reg uid sid)) u) := by
  constructor
  · exact setsNodup_runReg evs
  · intro hmem
    simp only [applyReg]
    split
    · exact hmem
    · by_cases hu : u = uid
      · subst hu
        rw [handlesOf_addHandle_self]
        exact mem_insertHandle_of_mem sid h _ hmem
      · rw [handlesOf_addHandle_ne uid sid u r hu]
        exact hmem

/-- Witness for the amended C2: a concrete handle registered under user a
stays in the set of a after the same handle is registered under user b. -/
theorem register_keeps_old_owner_witness :
    "h" ∈ handlesOf [("a", ["h"])] "a"
    ∧ "h" ∈ handlesOf (applyReg [("a", ["h"])] (RegEvent.reg "b" "h")) "a" :=
  ⟨by decide,
    (register_keeps_old_owner [] [("a", ["h"])] "a" "b" "h" "h").2 (by decide)⟩

/-- Claim C3: when a disconnect removes the last remaining handle of a
userId (a truthy one, as every registered userId is), the whole output of
the handler is exactly one user_offline broadcast and the userId key is
gone from the resulting registry; a disconnect of a handle present under
no user leaves the registry unchanged and emits nothing. -/
theorem disconnect_last_handle_offline (r r1 r2 : Registry)
    (uid sid : String) :
    ((∀ p ∈ r1, sid ∉ p.2) → uid.isEmpty = false → uid ∉ keys r1 →
      uid ∉ keys r2 →
      disconnectStep sid (r1 ++ (uid, [sid]) :: r2)
          = (r1 ++ r2, [(Target.all, OutEvent.user_offline uid)])
        ∧ uid ∉ keys (disconnectStep sid (r1 ++ (uid, [sid]) :: r2)).1)
    ∧ ((∀ p ∈ r, sid ∉ p.2) → disconnectStep sid r = (r, [])) := by
  constructor
  · intro hnot hne h1 h2
    have hrem := removeSocket_last r1 r2 uid sid hnot
    have hd : disconnectStep sid (r1 ++ (uid, [sid]) :: r2)
        = (r1 ++ r2, [(Target.all, OutEvent.user_offline uid)]) := by
      unfold disconnectStep
      rw [hrem]
      simp [hne]
    refine ⟨hd, ?_⟩
    rw [hd]
    simp only [keys_append, List.mem_append]
    intro hc
    rcases hc with hc | hc
    · exact h1 hc
    · exact h2 hc
  · intro hno
    unfold disconnectStep
    rw [removeSocket_not_found sid r hno]

/-- Witness for C3: disconnecting the only handle of bob removes the key
and emits exactly one offline broadcast; disconnecting an unknown handle
is a silent no-op. -/
theorem disconnect_last_handle_offline_witness :
    (disconnectStep "h2" [("alice", ["h1"]), ("bob", ["h2"])]
        = ([("alice", ["h1"])],
            [(Target.all, OutEvent.user_offline "bob")])
      ∧ "bob" ∉ keys (disconnectStep "h2"
          [("alice", ["h1"]), ("bob", ["h2"])]).1)
    ∧ disconnectStep "h9" [("alice", ["h1"])] = ([("alice", ["h1"])], []) :=
  ⟨(disconnect_last_handle_offline [] [("alice", ["h1"])] [] "bob" "h2").1
      (by decide) (by decide) (by decide) (by decide),
    (disconnect_last_handle_offline [("alice", ["h1"])] [] [] "bob" "h9").2
      (by decide)⟩

/-- Claim C4: a send_message payload whose senderId, receiverId and
content are all truthy is relayed to exactly the handles of the receiver,
one receive_message per handle, carrying the senderId and content of the
payload unchanged (and the optional messageId and createdAt passed
through); when the receiver key is absent the handler produces zero
messages; in both cases it returns normally. -/
theorem send_message_fanout (r : Registry) (s rcv c : String)
    (mid cat : Field) (hl : List String)
    (hsnd : s.isEmpty = false) (hrcv : rcv.isEmpty = false)
    (hc : c.isEmpty = false) :
    (lookupSet r rcv = some hl →
      sendMessageStep (some ⟨some s, some rcv, some c, mid, cat⟩) r
        = .ok (hl.map (fun sid =>
            (Target.sock sid, OutEvent.receive_message s c mid cat))))
    ∧ (lookupSet r rcv = none →
      sendMessageStep (some ⟨some s, some rcv, some c, mid, cat⟩) r
        = .ok []) := by
  constructor
  · intro hlook
    simp [sendMessageStep, hsnd, hrcv, hc, hlook]
  · intro hlook
    simp [sendMessageStep, hsnd, hrcv, hc, hlook]

/-- Witness for C4: bob with two live handles receives the message on
both, unchanged; carol with no registry key receives nothing. -/
theorem send_message_fanout_witness :
    sendMessageStep (some ⟨some "alice", some "bob", some "hi", none, none⟩)
        [("bob", ["h2", "h3"])]
      = .ok [(Target.sock "h2",
                OutEvent.receive_message "alice" "hi" none none),
             (Target.sock "h3",
                OutEvent.receive_message "alice" "hi" none none)]
    ∧ sendMessageStep (some ⟨some "alice", some "carol", some "hi", none, none⟩)
        [("bob", ["h2", "h3"])] = .ok [] :=
  ⟨(send_message_fanout [("bob", ["h2", "h3"])] "alice" "bob" "hi" none none
      ["h2", "h3"] (by decide) (by decide) (by decide)).1 (by decide),
    (send_message_fanout [("bob", ["h2", "h3"])] "alice" "carol" "hi" none none
      [] (by decide) (by decide) (by decide)).2 (by decide)⟩

/-- Claim C5: on every registration with a truthy userId, first or later
connection of that user alike, the handler emits exactly this sequence:
(a) one user_online broadcast to all connected parties, then (b) the full
current online key list to the registering socket only, then (c) one
user_online per other online user to the registering socket, the
registering userId itself excluded from (c); the emitted list is the key
list of the updated registry and the userId is one of its keys. -/
theorem register_presence_sequence (r : Registry) (selfId uid : String)
    (huid : uid.isEmpty = false) :
    registerStep selfId (some uid) r
      = (addHandle uid selfId r,
          (Target.all, OutEvent.user_online uid)
            :: (Target.sock selfId,
                  OutEvent.online_users (keys (addHandle uid selfId r)))
            :: ((keys (addHandle uid selfId r)).filter
                  (fun u => u != uid)).map
                (fun u => (Target.sock selfId, OutEvent.user_online u)))
    ∧ uid ∈ keys (addHandle uid selfId r) := by
  constructor
  · simp [registerStep, huid]
  · exact mem_keys_addHandle_self uid selfId r

/-- Witness for C5: the second connection of alice still triggers the
full broadcast sequence (broadcast plus online list to the new socket;
part (c) is empty since alice is the only online user). -/
theorem register_presence_sequence_witness :
    registerStep "h2" (some "alice") [("alice", ["h1"])]
      = ([("alice", ["h1", "h2"])],
          [(Target.all, OutEvent.user_online "alice"),
           (Target.sock "h2", OutEvent.online_users ["alice"])])
    ∧ "alice" ∈ keys [("alice", ["h1", "h2"])] :=
  register_presence_sequence [("alice", ["h1"])] "h2" "alice" (by decide)

/-- Claim C6: an offer sent from connection c is fanned out to every
handle of the receiver, each outbound offer tagged with senderSocketId
equal to c; an answer citing that socket id is one single message
addressed to the connection c only, with no registry lookup; and when c
has disconnected (is no longer live) that answer yields zero deliveries
while the handler still returns normally. -/
theorem webrtc_offer_answer_routing (r : Registry)
    (c c2 rcv s off ans : String) (hl live : List String)
    (hrcv : rcv.isEmpty = false) (hsnd : s.isEmpty = false)
    (hoff : off.isEmpty = false) (hans : ans.isEmpty = false)
    (hc : c.isEmpty = false) (hlook : lookupSet r rcv = some hl)
    (hlive : c ∉ live) :
    offerStep c (some ⟨some rcv, some s, some off⟩) r
        = .ok (hl.map (fun sid =>
            (Target.sock sid, OutEvent.webrtc_offer c s off)))
    ∧ answerStep c2 (some ⟨some c, some ans⟩)
        = .ok [(Target.sock c, OutEvent.webrtc_answer ans c2)]
    ∧ deliveriesOf live [(Target.sock c, OutEvent.webrtc_answer ans c2)]
        = [] := by
  refine ⟨?_, ?_, ?_⟩
  · simp [offerStep, hrcv, hsnd, hoff, hlook]
  · simp [answerStep, hc, hans]
  · simp [deliveriesOf, expandMsg, hlive]

/-- Witness for C6: a concrete offer from socket c1 to bob is tagged with
c1 on both handles of bob; the answer goes to c1 alone; with c1 gone from
the live sockets the answer is delivered nowhere. -/
theorem webrtc_offer_answer_routing_witness :
    offerStep "c1" (some ⟨some "bob", some "alice", some "sdp"⟩)
        [("bob", ["h2", "h3"])]
      = .ok [(Target.sock "h2", OutEvent.webrtc_offer "c1" "alice" "sdp"),
             (Target.sock "h3", OutEvent.webrtc_offer "c1" "alice" "sdp")]
    ∧ answerStep "h2" (some ⟨some "c1", some "sdpAns"⟩)
        = .ok [(Target.sock "c1", OutEvent.webrtc_answer "sdpAns" "h2")]
    ∧ deliveriesOf ["h2", "h3"]
        [(Target.sock "c1", OutEvent.webrtc_answer "sdpAns" "h2")] = [] :=
  webrtc_offer_answer_routing [("bob", ["h2", "h3"])] "c1" "h2" "bob" "alice"
    "sdp" "sdpAns" ["h2", "h3"] ["h2", "h3"] (by decide) (by decide)
    (by decide) (by decide) (by decide) (by decide) (by decide)

/-- Claim C7: for each relay kind, a payload with any required field falsy
or missing is dropped: the handler returns normally with zero outbound
messages and the registry unchanged (send_message requires senderId,
receiverId and content; send_media requires senderId, receiverId and
mediaType; typing and stop_typing require senderId and receiverId). -/
theorem relay_missing_field_dropped (selfId : String) (r : Registry)
    (q : MsgPayload) (qm : MediaPayload) (qt : TypingPayload) :
    ((truthy q.senderId = false ∨ truthy q.receiverId = false
        ∨ truthy q.content = false) →
      step selfId r (.send_message (some q)) = .ok (r, []))
    ∧ ((truthy qm.senderId = false ∨ truthy qm.receiverId = false
        ∨ truthy qm.mediaType = false) →
      step selfId r (.send_media (some qm)) = .ok (r, []))
    ∧ ((truthy qt.senderId = false ∨ truthy qt.receiverId = false) →
      step selfId r (.typing (some qt)) = .ok (r, [])
        ∧ step selfId r (.stop_typing (some qt)) = .ok (r, [])) := by
  refine ⟨?_, ?_, ?_⟩
  · intro hcase
    obtain ⟨sf, rf, cf, mf, af⟩ := q
    rcases sf with _ | s <;> rcases rf with _ | rcv <;> rcases cf with _ | c <;>
        simp_all [step, sendMessageStep, withReg, truthy] <;>
      rcases hcase with h | h | h <;> simp_all
  · intro hcase
    obtain ⟨sf, rf, mtf, df, ff, mf, af⟩ := qm
    rcases sf with _ | s <;> rcases rf with _ | rcv <;> rcases mtf with _ | mt <;>
        simp_all [step, sendMediaStep, withReg, truthy] <;>
      rcases hcase with h | h | h <;> simp_all
  · intro hcase
    obtain ⟨sf, rf⟩ := qt
    rcases sf with _ | s <;> rcases rf with _ | rcv <;>
      simp_all [step, typingStep, stopTypingStep, withReg, truthy]

/-- Witness for C7: a send_message with no content, a send_media with no
mediaType and a typing with no receiverId are all dropped without touching
the registry. -/
theorem relay_missing_field_dropped_witness :
    step "s1" [("bob", ["h2"])]
        (.send_message (some ⟨some "alice", some "bob", none, none, none⟩))
      = .ok ([("bob", ["h2"])], [])
    ∧ step "s1" [("bob", ["h2"])]
        (.send_media (some
          ⟨some "alice", some "bob", none, none, none, none, none⟩))
      = .ok ([("bob", ["h2"])], [])
    ∧ (step "s1" [("bob", ["h2"])]
          (.typing (some ⟨some "alice", none⟩)) = .ok ([("bob", ["h2"])], [])
        ∧ step "s1" [("bob", ["h2"])]
            (.stop_typing (some ⟨some "alice", none⟩))
          = .ok ([("bob", ["h2"])], [])) :=
  ⟨(relay_missing_field_dropped "s1" [("bob", ["h2"])]
      ⟨some "alice", some "bob", none, none, none⟩
      ⟨some "alice", some "bob", none, none, none, none, none⟩
      ⟨some "alice", none⟩).1 (Or.inr (Or.inr (by decide))),
    (relay_missing_field_dropped "s1" [("bob", ["h2"])]
      ⟨some "alice", some "bob", none, none, none⟩
      ⟨some "alice", some "bob", none, none, none, none, none⟩
      ⟨some "alice", none⟩).2.1 (Or.inr (Or.inr (by decide))),
    (relay_missing_field_dropped "s1" [("bob", ["h2"])]
      ⟨some "alice", some "bob", none, none, none⟩
      ⟨some "alice", some "bob", none, none, none, none, none⟩
      ⟨some "alice", none⟩).2.2 (Or.inr (by decide))⟩

/-- Claim C8 counterexample: the typing handler destructures its payload
argument, so invoking it with a null or absent payload throws instead of
silently doing nothing, contradicting the claim that no handler throws
for any input payload including absent or null payloads. -/
theorem typing_null_payload_throws :
    step "s1" [] (InEvent.typing none) = Except.error () := rfl

/-- Claim C8 amended: a handler invoked with an object payload (fields
may still be missing) never throws, and neither do register,
request_online_users and disconnect, which destructure nothing; but every
destructuring handler (typing, stop_typing, send_message, send_media,
webrtc_offer, webrtc_answer, webrtc_ice) throws on a null or absent
payload. -/
theorem handlers_no_throw_on_object_payload (selfId : String) (r : Registry)
    (ev : InEvent) :
    (hasObjectPayload ev = true → isOkStep (step selfId r ev) = true)
    ∧ step selfId r (.typing none) = .error ()
    ∧ step selfId r (.stop_typing none) = .error ()
    ∧ step selfId r (.send_message none) = .error ()
    ∧ step selfId r (.send_media none) = .error ()
    ∧ step selfId r (.webrtc_offer none) = .error ()
    ∧ step selfId r (.webrtc_answer none) = .error ()
    ∧ step selfId r (.webrtc_ice none) = .error () := by
  refine ⟨?_, rfl, rfl, rfl, rfl, rfl, rfl, rfl⟩
  intro h
  cases ev with
  | register uid => rfl
  | request_online_users => rfl
  | disconnect => rfl
  | typing p =>
    cases p with
    | none => simp [hasObjectPayload] at h
    | some q => rfl
  | stop_typing p =>
    cases p with
    | none => simp [hasObjectPayload] at h
    | some q => rfl
  | send_message p =>
    cases p with
    | none => simp [hasObjectPayload] at h
    | some q => rfl
  | send_media p =>
    cases p with
    | none => simp [hasObjectPayload] at h
    | some q => rfl
  | webrtc_offer p =>
    cases p with
    | none => simp [hasObjectPayload] at h
    | some q => rfl
  | webrtc_answer p =>
    cases p with
    | none => simp [hasObjectPayload] at h
    | some q => rfl
  | webrtc_ice p =>
    cases p with
    | none => simp [hasObjectPayload] at h
    | some q => rfl

/-- Witness for the amended C8: a typing event with an (empty) object
payload returns normally, and a send_message with a null payload throws. -/
theorem handlers_no_throw_on_object_payload_witness :
    isOkStep (step "s1" [] (InEvent.typing (some ⟨none, none⟩))) = true
    ∧ step "s1" [] (InEvent.send_message none) = Except.error () :=
  ⟨(handlers_no_throw_on_object_payload "s1" []
      (InEvent.typing (some ⟨none, none⟩))).1 rfl,
    (handlers_no_throw_on_object_payload "s1" []
      (InEvent.typing (some ⟨none, none⟩))).2.2.2.1⟩

/-- Claim C9: register is idempotent — registering the same userId and
handle pair twice in succession yields the same registry state as once,
and afterwards the handle occurs exactly once in the set of the userId
(under the duplicate-freeness of the sets, which holds in every reachable
registry). -/
theorem register_idempotent (r : Registry) (uid h : String)
    (hnd : ∀ p ∈ r, p.2.Nodup) (huid : uid.isEmpty = false) :
    (registerStep h (some uid) (registerStep h (some uid) r).1).1
        = (registerStep h (some uid) r).1
    ∧ (handlesOf (registerStep h (some uid) r).1 uid).count h = 1 := by
  have hreg : ∀ r2 : Registry,
      (registerStep h (some uid) r2).1 = addHandle uid h r2 := by
    intro r2
    simp [registerStep, huid]
  constructor
  · rw [hreg, hreg]
    exact addHandle_idem uid h r
  · rw [hreg, handlesOf_addHandle_self]
    exact count_insertHandle_self h _ (handlesOf_nodup r uid hnd)

/-- Witness for C9: registering the pair (a, h1) twice from the empty
registry equals registering it once, and h1 then occurs exactly once. -/
theorem register_idempotent_witness :
    (registerStep "h1" (some "a")
        (registerStep "h1" (some "a") ([] : Registry)).1).1
      = (registerStep "h1" (some "a") ([] : Registry)).1
    ∧ (handlesOf (registerStep "h1" (some "a") ([] : Registry)).1 "a").count
        "h1" = 1 :=
  register_idempotent [] "a" "h1" (by simp) (by decide)

/-- Claim C10: a relay payload whose required content field is present
but equal to the empty string (falsy in JS) is dropped exactly like a
missing field: the handler returns normally with zero outbound messages
and the registry unchanged, for send_message with empty content and for
send_media with empty mediaType. -/
theorem falsy_required_field_dropped (selfId : String) (r : Registry)
    (s rcv : String) (mid cat d f : Field) :
    step selfId r
        (.send_message (some ⟨some s, some rcv, some "", mid, cat⟩))
      = .ok (r, [])
    ∧ step selfId r
        (.send_media (some ⟨some s, some rcv, some "", d, f, mid, cat⟩))
      = .ok (r, []) := by
  have h0 : ("" : String).isEmpty = true := rfl
  constructor
  · simp [step, sendMessageStep, withReg, h0]
  · simp [step, sendMediaStep, withReg, h0]

end Planora
